import Mathlib

/-!
Shallow embedding of the payroll / metrics / notification core of the
small-business management app in `src/app.py` (Streamlit UI over a
Supabase table store).

Modelling conventions:
* Currency amounts, daily rates and hours are exact rationals (`ℚ`).
* Calendar dates are integers (day ordinals); the storage layer's
  ISO-date string comparisons (`gte`/`lte` on `date`) become integer
  comparisons, date ranges are inclusive on both ends.
* The table store is a `Database` record of lists; each `get_*_df`
  loader becomes a filter + sort over the corresponding list.  The
  store's `order(...)` and pandas' `sort_values` are modelled as a
  stable insertion sort (rows arrive from storage already ordered by
  the sort key, so only the relative order of equal keys is at stake,
  which the spec pins to insertion order).
* Python's `round(x, n)` is modelled as rounding `x * 10^n` to the
  nearest integer (`round2`, `round3`); no claim settled here depends
  on the behaviour at exact half-way ties, where Python rounds to even.
* A SQL NULL / missing `hours` value and the empty-string case the
  source guards against (`hours not in (None, "")`) are both `none`.
* The notification messages are f-strings in the source carrying the
  observed value and the threshold; they are modelled structurally as
  an `Alert` value carrying those two numbers.
* Columns of the joined views that the engine never reads
  (`worker_name`, `role` on attendance rows, `category`, `description`
  on transactions, `notes` on worker payments) are omitted.
-/

namespace App

/-- Attendance `status` column; the UI writer only produces these four values. -/
inductive Status
  | present
  | absent
  | leave
  | halfDay
deriving DecidableEq

/-- Transaction `type` column (`INCOME` / `EXPENSE`). -/
inductive TxType
  | income
  | expense
deriving DecidableEq

/-- Worker-payment `type` column (`PAYMENT` / `ADVANCE`). -/
inductive PayType
  | payment
  | advance
deriving DecidableEq

/-- Row of the `workers` table (fields the payroll engine reads);
`daily_rate` may be NULL, hence `Option`. -/
structure Worker where
  id : ℕ
  name : String
  dailyRate : Option ℚ
  isActive : Bool
deriving DecidableEq

/-- Row of the `attendance_view` view: `worker_id`, `date`, `status`, `hours`.
`hours = none` models both SQL NULL and the empty string. -/
structure AttendanceRecord where
  workerId : ℕ
  date : ℤ
  status : Status
  hours : Option ℚ
deriving DecidableEq

/-- Row of the `transactions` table (fields the engines read). -/
structure Transaction where
  date : ℤ
  type : TxType
  amount : ℚ
deriving DecidableEq

/-- Row of the `worker_payments_view` view (fields the engine reads). -/
structure WorkerPayment where
  workerId : ℕ
  date : ℤ
  amount : ℚ
  type : PayType
deriving DecidableEq

/-- The table store: one list per table, plus the `settings` key/value
table (values stored as text, as `set_setting` stringifies). -/
structure Database where
  workers : List Worker
  attendance : List AttendanceRecord
  transactions : List Transaction
  workerPayments : List WorkerPayment
  settings : List (String × String)

/-- Value returned by `get_setting`: the stored text parsed as a float
when possible, else the raw text (and the caller-supplied default is
itself such a value). -/
inductive SettingValue
  | num (q : ℚ)
  | str (s : String)
deriving DecidableEq

/-- Numeric value of a list of decimal digit characters (most significant first). -/
def digitsToNat (l : List Char) : ℕ :=
  l.foldl (fun a c => 10 * a + (c.toNat - 48)) 0

/-- Whitespace stripped by Python's `float(str)` before parsing. -/
def isPyWs (c : Char) : Bool :=
  c = ' ' ∨ c = '\t' ∨ c = '\n' ∨ c = '\r'

/-- Model of Python `float(·)` on a character list: optional sign, decimal
digits with at most one point (at least one digit required), optional
exponent part.  The `inf` / `nan` words and digit-group underscores that
CPython also accepts are not modelled; no claim depends on them. -/
def pyFloatChars? (cs : List Char) : Option ℚ :=
  let (sgn, cs₁) : ℚ × List Char :=
    match cs with
    | '+' :: t => (1, t)
    | '-' :: t => (-1, t)
    | _ => (1, cs)
  let intDs := cs₁.takeWhile Char.isDigit
  let rest₁ := cs₁.dropWhile Char.isDigit
  let (fracDs, rest₂) : List Char × List Char :=
    match rest₁ with
    | '.' :: t => (t.takeWhile Char.isDigit, t.dropWhile Char.isDigit)
    | _ => ([], rest₁)
  if intDs.isEmpty ∧ fracDs.isEmpty then none
  else
    let mant : ℚ := (digitsToNat intDs : ℚ) + (digitsToNat fracDs : ℚ) / (10 : ℚ) ^ fracDs.length
    match rest₂ with
    | [] => some (sgn * mant)
    | c :: t =>
      if c = 'e' ∨ c = 'E' then
        let (esgn, t₁) : ℤ × List Char :=
          match t with
          | '+' :: u => (1, u)
          | '-' :: u => (-1, u)
          | _ => (1, t)
        let eds := t₁.takeWhile Char.isDigit
        let rest₃ := t₁.dropWhile Char.isDigit
        if eds.isEmpty ∨ ¬ rest₃.isEmpty then none
        else some (sgn * mant * (10 : ℚ) ^ (esgn * (digitsToNat eds : ℤ)))
      else none

/-- Model of Python `float(·)` on a string (leading/trailing whitespace stripped). -/
def pyFloat? (s : String) : Option ℚ :=
  pyFloatChars? (((s.data.dropWhile isPyWs).reverse.dropWhile isPyWs).reverse)

/-- First stored value for a key in the `settings` table (the source reads
`res.data[0]["value"]`; `upsert` on the key keeps keys unique, but the model
takes the first match like the source does). -/
def lookupSetting (settings : List (String × String)) (key : String) : Option String :=
  (settings.find? (fun p => p.1 = key)).map (·.2)

/-- Model of `get_setting`: a missing key yields the supplied default
unchanged; a stored value is parsed by `float(value)` and on
`ValueError`/`TypeError` the raw value is returned un-parsed.  The source
function performs only a `select` query — it has no write path. -/
def getSetting (settings : List (String × String)) (key : String)
    (default : SettingValue) : SettingValue :=
  match lookupSetting settings key with
  | none => default
  | some v =>
    match pyFloat? v with
    | some q => .num q
    | none => .str v

instance decWorkerNameLe : DecidableRel (fun a b : Worker => a.name ≤ b.name) :=
  fun a b => inferInstanceAs (Decidable (a.name ≤ b.name))

instance decAttDateLe : DecidableRel (fun a b : AttendanceRecord => a.date ≤ b.date) :=
  fun a b => inferInstanceAs (Decidable (a.date ≤ b.date))

instance decTxDateLe : DecidableRel (fun a b : Transaction => a.date ≤ b.date) :=
  fun a b => inferInstanceAs (Decidable (a.date ≤ b.date))

instance decPayDateLe : DecidableRel (fun a b : WorkerPayment => a.date ≤ b.date) :=
  fun a b => inferInstanceAs (Decidable (a.date ≤ b.date))

/-- Model of `get_workers_df`: optionally keep only active workers, ordered by name. -/
def getWorkersDf (db : Database) (activeOnly : Bool) : List Worker :=
  let ws := if activeOnly then db.workers.filter (·.isActive) else db.workers
  List.insertionSort (fun a b => a.name ≤ b.name) ws

/-- Model of `get_transactions_df` with both optional date bounds supplied
(the only form the engines under specification use): inclusive range
filter, ordered by date. -/
def getTransactionsDf (db : Database) (startDate endDate : ℤ) : List Transaction :=
  List.insertionSort (fun a b => a.date ≤ b.date)
    (db.transactions.filter (fun t => startDate ≤ t.date ∧ t.date ≤ endDate))

/-- Model of `get_attendance_range_df`: inclusive range filter, ordered by date. -/
def getAttendanceRangeDf (db : Database) (startDate endDate : ℤ) : List AttendanceRecord :=
  List.insertionSort (fun a b => a.date ≤ b.date)
    (db.attendance.filter (fun a => startDate ≤ a.date ∧ a.date ≤ endDate))

/-- Model of `get_worker_payments_range_df`: inclusive range filter, ordered by date. -/
def getWorkerPaymentsRangeDf (db : Database) (startDate endDate : ℤ) : List WorkerPayment :=
  List.insertionSort (fun a b => a.date ≤ b.date)
    (db.workerPayments.filter (fun p => startDate ≤ p.date ∧ p.date ≤ endDate))

/-- Hours used for a `Present` day: the source first defaults a missing or
empty `hours` field to 8.0 (`hours not in (None, "")`), then inside the
`Present` branch re-defaults a non-positive value to 8.0
(`if hours <= 0: hours = 8.0`).  The `Half-Day` branch never reads hours. -/
def presentHours (h : Option ℚ) : ℚ :=
  let h₀ := h.getD 8
  if h₀ ≤ 0 then 8 else h₀

/-- Per-worker accumulators of the payroll loop. -/
structure PayStats where
  gross : ℚ
  daysPresent : ℕ
  halfDays : ℕ
  overtimeTotal : ℚ
  workedDaysEq : ℚ
deriving DecidableEq

/-- Accumulators start at zero for each worker. -/
def initStats : PayStats := ⟨0, 0, 0, 0, 0⟩

/-- One iteration of the payroll day loop, translated from the body of
`for _, day_row in w_att_by_day.iterrows()` in `calculate_payroll`. -/
def processDay (rate : ℚ) (st : PayStats) (a : AttendanceRecord) : PayStats :=
  match a.status with
  | .present =>
    let hours := presentHours a.hours
    let baseHours := min hours 8
    let overtimeHours := max 0 (hours - 8)
    let basePay := (baseHours / 8) * rate
    let overtimePay := overtimeHours * (rate / 8)
    let dayPay := basePay + overtimePay
    { gross := st.gross + dayPay
      daysPresent := st.daysPresent + (if 0 < baseHours then 1 else 0)
      halfDays := st.halfDays
      overtimeTotal := st.overtimeTotal + overtimeHours
      workedDaysEq := st.workedDaysEq + (baseHours / 8 + overtimeHours / 8) }
  | .halfDay =>
    { st with
      gross := st.gross + 0.5 * rate
      halfDays := st.halfDays + 1
      workedDaysEq := st.workedDaysEq + 0.5 }
  | _ => st

/-- Chronologically last attendance row for day `d` (list order is the
order the rows were delivered in, i.e. date-ascending with storage /
insertion order among equal dates). -/
def lastWithDay (d : ℤ) (l : List AttendanceRecord) : Option AttendanceRecord :=
  (l.filter (fun a => a.date = d)).getLast?

/-- Distinct calendar days of an attendance list, ascending — the group
keys of `groupby("att_day")` (pandas sorts group keys). -/
def sortedDays (l : List AttendanceRecord) : List ℤ :=
  List.insertionSort (· ≤ ·) (l.map (·.date)).dedup

/-- Model of the day-collapse pipeline
`assign(att_day=date).sort_values("date").groupby("att_day").last().reset_index()`:
one row per distinct day, days ascending, and for each day the
chronologically last row (`sort_values` by the day-valued `date` column
is stable on each day's rows, so `.last()` picks the last row of that
day in delivered order). -/
def collapseByDay (l : List AttendanceRecord) : List AttendanceRecord :=
  (sortedDays l).filterMap (fun d => lastWithDay d l)

/-- Per-worker accumulators after folding the collapsed days.  The source
skips the whole block when the worker has no attendance rows, which
coincides with folding over the empty collapsed list. -/
def workerStats (rate : ℚ) (watt : List AttendanceRecord) : PayStats :=
  (collapseByDay watt).foldl (processDay rate) initStats

/-- Model of Python `round(q, 2)` (see the tie caveat in the file header). -/
def round2 (q : ℚ) : ℚ := ((round (q * 100) : ℤ) : ℚ) / 100

/-- Model of Python `round(q, 3)`. -/
def round3 (q : ℚ) : ℚ := ((round (q * 1000) : ℤ) : ℚ) / 1000

/-- One output row of `calculate_payroll`. -/
structure PayrollRow where
  workerId : ℕ
  workerName : String
  dailyRate : ℚ
  daysPresent : ℕ
  halfDays : ℕ
  overtimeHours : ℚ
  workedDaysEquivalent : ℚ
  grossSalary : ℚ
  totalAdvance : ℚ
  totalPaymentDone : ℚ
  netPayable : ℚ
deriving DecidableEq

/-- Daily rate with the source's NULL default: `float(w["daily_rate"]) if ... else 0.0`. -/
def workerRate (w : Worker) : ℚ := w.dailyRate.getD 0

/-- The worker's slice of the range attendance: `att_df[att_df["worker_id"] == wid]`. -/
def workerAtt (w : Worker) (att : List AttendanceRecord) : List AttendanceRecord :=
  att.filter (fun a => a.workerId = w.id)

/-- Raw (pre-rounding) gross salary aggregate for one worker. -/
def grossFor (w : Worker) (att : List AttendanceRecord) : ℚ :=
  (workerStats (workerRate w) (workerAtt w att)).gross

/-- Raw sum of the worker's `ADVANCE` payment amounts in range. -/
def advancesFor (w : Worker) (pay : List WorkerPayment) : ℚ :=
  (((pay.filter (fun p => p.workerId = w.id)).filter (fun p => p.type = PayType.advance)).map
    (·.amount)).sum

/-- Raw sum of the worker's `PAYMENT` payment amounts in range. -/
def paymentsFor (w : Worker) (pay : List WorkerPayment) : ℚ :=
  (((pay.filter (fun p => p.workerId = w.id)).filter (fun p => p.type = PayType.payment)).map
    (·.amount)).sum

/-- One worker's payroll row, translated from the body of the
`for _, w in workers_df.iterrows()` loop of `calculate_payroll`:
`net_payable` is computed from the raw aggregates, then the four money
fields are rounded to 2 decimals and `worked_days_equivalent` to 3
(`overtime_hours` is emitted unrounded). -/
def payrollRowFor (w : Worker) (att : List AttendanceRecord)
    (pay : List WorkerPayment) : PayrollRow :=
  let st := workerStats (workerRate w) (workerAtt w att)
  let advances := advancesFor w pay
  let payments := paymentsFor w pay
  let netPayable := st.gross - advances - payments
  { workerId := w.id
    workerName := w.name
    dailyRate := workerRate w
    daysPresent := st.daysPresent
    halfDays := st.halfDays
    overtimeHours := st.overtimeTotal
    workedDaysEquivalent := round3 st.workedDaysEq
    grossSalary := round2 st.gross
    totalAdvance := round2 advances
    totalPaymentDone := round2 payments
    netPayable := round2 netPayable }

instance decRowNameLe : DecidableRel (fun a b : PayrollRow => a.workerName ≤ b.workerName) :=
  fun a b => inferInstanceAs (Decidable (a.workerName ≤ b.workerName))

/-- Model of `calculate_payroll`: empty output if there are no active
workers, otherwise one row per active worker built from the range
attendance and payments, finally sorted by worker name. -/
def calculatePayroll (db : Database) (startDate endDate : ℤ) : List PayrollRow :=
  let workers := getWorkersDf db true
  if workers.isEmpty then []
  else
    let att := getAttendanceRangeDf db startDate endDate
    let pay := getWorkerPaymentsRangeDf db startDate endDate
    List.insertionSort (fun a b => a.workerName ≤ b.workerName)
      (workers.map (fun w => payrollRowFor w att pay))

/-- Structural model of the two f-string warnings `check_notifications`
can emit, carrying the observed value and the threshold that each
message interpolates (to 2 decimal places in the source). -/
inductive Alert
  | highExpense (observed threshold : ℚ)
  | heavyFlow (observed threshold : ℚ)
deriving DecidableEq

/-- Sum of `EXPENSE` amounts in a transaction list. -/
def expenseTotal (l : List Transaction) : ℚ :=
  ((l.filter (fun t => t.type = TxType.expense)).map (·.amount)).sum

/-- Sum of `INCOME` amounts in a transaction list. -/
def incomeTotal (l : List Transaction) : ℚ :=
  ((l.filter (fun t => t.type = TxType.income)).map (·.amount)).sum

/-- Distinct days carrying at least one `EXPENSE` row — the group keys of
`tx[tx["type"] == "EXPENSE"].groupby(tx["date"].dt.date)`. -/
def expenseDays (l : List Transaction) : List ℤ :=
  ((l.filter (fun t => t.type = TxType.expense)).map (·.date)).dedup

/-- Mean of the daily `EXPENSE` sums (`daily_expenses.mean()`): total
expense divided by the number of days having expense activity, and 0
when there is no expense row at all (`if len(daily_expenses) > 0`). -/
def avgDailyExpense (l : List Transaction) : ℚ :=
  if (expenseDays l).isEmpty then 0 else expenseTotal l / ((expenseDays l).length : ℚ)

/-- One threshold check of `check_notifications`
(`if threshold and observed > threshold: msgs.append(...)`).  Python
truthiness: the float 0.0 and the empty string are falsy and skip the
check; a non-empty string threshold (a non-numeric stored setting) is
truthy and the comparison `float > str` raises `TypeError`, modelled as
`none`. -/
def alertFrom (v : SettingValue) (observed : ℚ) (mk : ℚ → ℚ → Alert) :
    Option (List Alert) :=
  match v with
  | .num t => some (if t ≠ 0 ∧ t < observed then [mk observed t] else [])
  | .str s => if s = "" then some [] else none

/-- Model of `check_notifications` at a given `today`: transactions of the
trailing 30-day window `[today - 30, today]`, early return on an empty
window, then the high-daily-expense and heavy-fund-flow checks against
the stored thresholds, defaulting to 1.5× resp. 2× the trailing average
daily expense (0 when that average is 0, via Python truthiness).  The
source's redundant `if len(tx) > 0` re-check inside the non-empty branch
is dropped.  `none` models a `TypeError` escaping the function. -/
def checkNotifications (db : Database) (today : ℤ) : Option (List Alert) :=
  let tx := getTransactionsDf db (today - 30) today
  if tx.isEmpty then some []
  else
    let txToday := tx.filter (fun t => t.date = today)
    let todayExpense := expenseTotal txToday
    let avg := avgDailyExpense tx
    match alertFrom
        (getSetting db.settings "expense_threshold"
          (.num (if avg ≠ 0 then avg * 1.5 else 0)))
        todayExpense Alert.highExpense with
    | none => none
    | some m₁ =>
      let totalFlow := todayExpense + incomeTotal txToday
      match alertFrom
          (getSetting db.settings "fund_flow_threshold"
            (.num (if avg ≠ 0 then avg * 2 else 0)))
          totalFlow Alert.heavyFlow with
      | none => none
      | some m₂ => some (m₁ ++ m₂)

/-- A rational that is a whole number of hundredths (a whole-cent
currency amount). -/
def isCent (q : ℚ) : Prop := (q * 100).den = 1

instance decIsCent : DecidablePred isCent :=
  fun q => inferInstanceAs (Decidable ((q * 100).den = 1))

/-! Concrete inputs used by the claim theorems, their witnesses and
counterexamples. -/

/-- Database with one active worker and an empty attendance/payment
store, used for the reversed-range behaviour of `calculate_payroll`. -/
def c1db : Database :=
  { workers := [⟨1, "a", some 500, true⟩]
    attendance := []
    transactions := []
    workerPayments := [⟨1, 7, 40, .advance⟩]
    settings := [] }

/-- Database exhibiting sub-cent rounding drift: a zero-rate worker with
an `ADVANCE` and a `PAYMENT` of 0.004 each. -/
def c2db : Database :=
  { workers := [⟨1, "a", some 0, true⟩]
    attendance := []
    transactions := []
    workerPayments := [⟨1, 5, 1 / 250, .advance⟩, ⟨1, 5, 1 / 250, .payment⟩]
    settings := [] }

/-- Worker for the whole-cent witness of the amended conservation law. -/
def c2wW : Worker := ⟨1, "b", some 800, true⟩

/-- One full 8-hour `Present` day for the conservation witness (raw gross 800). -/
def c2wAtt : List AttendanceRecord := [⟨1, 3, .present, some 8⟩]

/-- One `ADVANCE` of 100 for the conservation witness. -/
def c2wPay : List WorkerPayment := [⟨1, 4, 100, .advance⟩]

/-- Same-day attendance pair: a `Present` row later overwritten by a
`Half-Day` row for the same calendar day 5. -/
def c3A : AttendanceRecord := ⟨1, 5, .present, some 4⟩

/-- The chronologically last row of day 5. -/
def c3B : AttendanceRecord := ⟨1, 5, .halfDay, none⟩

/-- Attendance list with two raw rows on the same day. -/
def c3l₁ : List AttendanceRecord := [c3A, c3B]

/-- Attendance list holding only the last row of day 5. -/
def c3l₂ : List AttendanceRecord := [c3B]

/-- Transactions of the notification scenario: trailing-window expenses
of 100, 200, 300 on three earlier days and today's (day 100) expense of
350; thresholds unset. -/
def c5db : Database :=
  { workers := []
    attendance := []
    transactions := [⟨80, .expense, 100⟩, ⟨81, .expense, 200⟩, ⟨82, .expense, 300⟩,
      ⟨100, .expense, 350⟩]
    workerPayments := []
    settings := [] }

/-- Database for the zero-attendance counterexample: an active worker
with no attendance and two sub-cent payment rows (0.006 each). -/
def c7db : Database :=
  { workers := [⟨1, "w", some 600, true⟩]
    attendance := []
    transactions := []
    workerPayments := [⟨1, 5, 3 / 500, .advance⟩, ⟨1, 6, 3 / 500, .payment⟩]
    settings := [] }

/-- Worker for the zero-attendance witness. -/
def c7wW : Worker := ⟨1, "w", some 600, true⟩

/-- Attendance rows belonging to a different worker only, so worker 1 has
no attendance in range. -/
def c7wAtt : List AttendanceRecord := [⟨2, 5, .present, none⟩]

/-- A single `ADVANCE` of 50 for the zero-attendance witness. -/
def c7wPay : List WorkerPayment := [⟨1, 5, 50, .advance⟩]

/-- Entirely empty store: the trailing transaction window is empty. -/
def c8db : Database :=
  { workers := []
    attendance := []
    transactions := []
    workerPayments := []
    settings := [] }

/-- Settings store holding one non-numeric value. -/
def c9settings : List (String × String) := [("expense_threshold", "abc")]

end App

attribute [local semireducible] Rat.mul Rat.inv Rat.add Rat.sub Rat.ofScientific

namespace App

/-! Helper lemmas shared by the claim theorems. -/

theorem round2_zero : round2 0 = 0 := by decide

theorem round3_zero : round3 0 = 0 := by decide

/-- A whole-cent amount is a fixed point of the 2-decimal rounding. -/
theorem round2_of_isCent {q : ℚ} (h : isCent q) : round2 q = q := by
  unfold isCent at h
  unfold round2
  have h2 : ((q * 100).num : ℚ) = q * 100 := (Rat.den_eq_one_iff _).mp h
  rw [← h2, round_intCast, h2, mul_div_assoc]
  norm_num

theorem isCent_zero : isCent 0 := by decide

theorem isCent_sub {a b : ℚ} (ha : isCent a) (hb : isCent b) : isCent (a - b) := by
  unfold isCent at *
  have ha' : ((a * 100).num : ℚ) = a * 100 := (Rat.den_eq_one_iff _).mp ha
  have hb' : ((b * 100).num : ℚ) = b * 100 := (Rat.den_eq_one_iff _).mp hb
  have : (a - b) * 100 = (((a * 100).num - (b * 100).num : ℤ) : ℚ) := by
    push_cast [ha', hb']
    ring
  rw [this, Rat.den_intCast]

/-- Hours of a `Present` day are always positive after the two defaulting steps. -/
theorem presentHours_pos (h : Option ℚ) : 0 < presentHours h := by
  unfold presentHours
  cases h with
  | none => norm_num
  | some v =>
    by_cases hv : v ≤ 0
    · simp [hv]
    · simp only [Option.getD_some]
      rw [if_neg hv]
      exact lt_of_not_le hv

/-- The row selected for a day belongs to the list and carries that day. -/
theorem lastWithDay_spec {d : ℤ} {l : List AttendanceRecord} {a : AttendanceRecord}
    (h : lastWithDay d l = some a) : a ∈ l ∧ a.date = d := by
  unfold lastWithDay at h
  have hm := List.mem_of_getLast?_eq_some h
  have hm' := List.mem_filter.mp hm
  exact ⟨hm'.1, by simpa using hm'.2⟩

/-- No row is selected for a day exactly when no row carries that day. -/
theorem lastWithDay_eq_none_iff {d : ℤ} {l : List AttendanceRecord} :
    lastWithDay d l = none ↔ ∀ a ∈ l, a.date ≠ d := by
  unfold lastWithDay
  rw [List.getLast?_eq_none_iff, List.filter_eq_nil_iff]
  simp

theorem sortedDays_nodup (l : List AttendanceRecord) : (sortedDays l).Nodup := by
  unfold sortedDays
  exact ((List.perm_insertionSort _ _).nodup_iff).mpr (List.nodup_dedup _)

theorem sortedDays_sorted (l : List AttendanceRecord) : (sortedDays l).Sorted (· ≤ ·) :=
  List.sorted_insertionSort _ _

theorem mem_sortedDays {l : List AttendanceRecord} {d : ℤ} :
    d ∈ sortedDays l ↔ ∃ a ∈ l, a.date = d := by
  unfold sortedDays
  rw [(List.perm_insertionSort _ _).mem_iff, List.mem_dedup, List.mem_map]

/-- A day has a selected row exactly when some row carries it. -/
theorem exists_att_iff_lastWithDay {l : List AttendanceRecord} {d : ℤ} :
    (∃ a ∈ l, a.date = d) ↔ lastWithDay d l ≠ none := by
  rw [Ne, lastWithDay_eq_none_iff]
  push_neg
  rfl

/-- The payroll accumulators depend only on the per-day selected rows:
two attendance lists that agree on the chronologically last row of every
calendar day produce identical statistics. -/
theorem workerStats_congr (rate : ℚ) {l₁ l₂ : List AttendanceRecord}
    (h : ∀ d, lastWithDay d l₁ = lastWithDay d l₂) :
    workerStats rate l₁ = workerStats rate l₂ := by
  have hdays : sortedDays l₁ = sortedDays l₂ := by
    apply List.eq_of_perm_of_sorted _ (sortedDays_sorted l₁) (sortedDays_sorted l₂)
    rw [List.perm_ext_iff_of_nodup (sortedDays_nodup l₁) (sortedDays_nodup l₂)]
    intro d
    rw [mem_sortedDays, mem_sortedDays, exists_att_iff_lastWithDay,
      exists_att_iff_lastWithDay, h d]
  have hfun : (fun d => lastWithDay d l₁) = fun d => lastWithDay d l₂ := funext h
  unfold workerStats collapseByDay
  rw [hdays, hfun]

/-- Over a duplicate-free key list, the group-last extraction yields at
most one row per calendar day. -/
theorem filterMap_lastWithDay_count (l : List AttendanceRecord) :
    ∀ keys : List ℤ, keys.Nodup → ∀ d : ℤ,
      (((keys.filterMap (fun k => lastWithDay k l)).filter (fun a => a.date = d)).length ≤ 1) := by
  intro keys
  induction keys with
  | nil => intro _ d; simp
  | cons k ks ih =>
    intro hnd d
    have hk : k ∉ ks := (List.nodup_cons.mp hnd).1
    have hnd' : ks.Nodup := (List.nodup_cons.mp hnd).2
    rw [List.filterMap_cons]
    cases hfk : lastWithDay k l with
    | none => exact ih hnd' d
    | some a =>
      have had : a.date = k := (lastWithDay_spec hfk).2
      rw [List.filter_cons]
      by_cases hdk : a.date = d
      · have hrest : ((ks.filterMap (fun k => lastWithDay k l)).filter
            (fun a => a.date = d)) = [] := by
          rw [List.filter_eq_nil_iff]
          intro b hb
          obtain ⟨k', hk', hfk'⟩ := List.mem_filterMap.mp hb
          have hbd : b.date = k' := (lastWithDay_spec hfk').2
          simp only [decide_eq_true_eq]
          intro hbd'
          have hkk : k' = k := by rw [← hbd, hbd', ← hdk, had]
          exact hk (hkk ▸ hk')
        simp [hdk, hrest]
      · simp only [decide_eq_true_eq]
        rw [if_neg hdk]
        exact ih hnd' d

/-- 2-decimal-range filters over a reversed range select nothing. -/
theorem getAttendanceRangeDf_of_rev (db : Database) {s e : ℤ} (h : e < s) :
    getAttendanceRangeDf db s e = [] := by
  unfold getAttendanceRangeDf
  have hfil : db.attendance.filter (fun a => s ≤ a.date ∧ a.date ≤ e) = [] := by
    rw [List.filter_eq_nil_iff]
    intro a _
    simp only [decide_eq_true_eq, not_and, not_le]
    intro hs
    omega
  rw [hfil]
  rfl

theorem getWorkerPaymentsRangeDf_of_rev (db : Database) {s e : ℤ} (h : e < s) :
    getWorkerPaymentsRangeDf db s e = [] := by
  unfold getWorkerPaymentsRangeDf
  have hfil : db.workerPayments.filter (fun p => s ≤ p.date ∧ p.date ≤ e) = [] := by
    rw [List.filter_eq_nil_iff]
    intro p _
    simp only [decide_eq_true_eq, not_and, not_le]
    intro hs
    omega
  rw [hfil]
  rfl

/-- A worker with no attendance slice and no payment rows yields the all-zero row. -/
theorem payrollRowFor_nil_nil (w : Worker) :
    payrollRowFor w [] [] = ⟨w.id, w.name, workerRate w, 0, 0, 0, 0, 0, 0, 0, 0⟩ := by
  simp [payrollRowFor, workerAtt, workerStats, collapseByDay, sortedDays, advancesFor,
    paymentsFor, initStats, round2_zero, round3_zero, List.insertionSort]

/-- The day-count accumulator counts the collapsed `Present` rows of the fold. -/
theorem foldl_daysPresent (rate : ℚ) :
    ∀ (l : List AttendanceRecord) (st : PayStats),
      (l.foldl (processDay rate) st).daysPresent =
        st.daysPresent + (l.filter (fun a => a.status = Status.present)).length := by
  intro l
  induction l with
  | nil => intro st; simp
  | cons a t ih =>
    intro st
    rw [List.foldl_cons, ih]
    have hstep : (processDay rate st a).daysPresent =
        st.daysPresent + (if a.status = Status.present then 1 else 0) := by
      cases ha : a.status <;> simp [processDay, ha]
      exact presentHours_pos a.hours
    rw [hstep, List.filter_cons]
    by_cases hp : a.status = Status.present
    · simp [hp]
      omega
    · simp [hp]

/-! Claim theorems. -/

/-- Claim C1, counterexample: in the reversed range `[10, 5]` the payroll
of a store with one active worker is not the empty result set the claim
predicts — the engine still emits a row for the worker. -/
theorem C1_counterexample : calculatePayroll c1db 10 5 ≠ [] := by decide

/-- Claim C1, amended: for every date range with `end < start`,
`calculate_payroll` raises no error and returns one row per currently
active worker (so the result is empty exactly when no active worker
exists, not regardless of the worker count); every returned row carries
all-zero pay figures, advances, payments and net payable, because the
range filters match no attendance or payment rows. -/
theorem C1_theorem (db : Database) (s e : ℤ) (h : e < s) :
    (calculatePayroll db s e).length = (getWorkersDf db true).length ∧
    ∀ r ∈ calculatePayroll db s e,
      r.grossSalary = 0 ∧ r.daysPresent = 0 ∧ r.halfDays = 0 ∧ r.overtimeHours = 0 ∧
      r.workedDaysEquivalent = 0 ∧ r.totalAdvance = 0 ∧ r.totalPaymentDone = 0 ∧
      r.netPayable = 0 := by
  have hatt := getAttendanceRangeDf_of_rev db h
  have hpay := getWorkerPaymentsRangeDf_of_rev db h
  simp only [calculatePayroll, hatt, hpay]
  by_cases hw : (getWorkersDf db true).isEmpty
  · rw [if_pos hw]
    constructor
    · simp [List.isEmpty_iff.mp hw]
    · intro r hr
      exact absurd hr (List.not_mem_nil r)
  · rw [if_neg hw]
    constructor
    · rw [(List.perm_insertionSort _ _).length_eq, List.length_map]
    · intro r hr
      have hr' := ((List.perm_insertionSort _ _).mem_iff).mp hr
      obtain ⟨w, hwmem, rfl⟩ := List.mem_map.mp hr'
      rw [payrollRowFor_nil_nil w]
      exact ⟨rfl, rfl, rfl, rfl, rfl, rfl, rfl, rfl⟩

/-- Claim C1, witness: the amended statement evaluated on the one-worker
store with the reversed range `[10, 5]`. -/
theorem C1_witness :
    (calculatePayroll c1db 10 5).length = (getWorkersDf c1db true).length ∧
    ∀ r ∈ calculatePayroll c1db 10 5,
      r.grossSalary = 0 ∧ r.daysPresent = 0 ∧ r.halfDays = 0 ∧ r.overtimeHours = 0 ∧
      r.workedDaysEquivalent = 0 ∧ r.totalAdvance = 0 ∧ r.totalPaymentDone = 0 ∧
      r.netPayable = 0 :=
  C1_theorem c1db 10 5 (by norm_num)

/-- Claim C2, counterexample: with raw aggregates gross = 0,
advance = 0.004 and payment = 0.004 the emitted row has
`net_payable = round2(-0.008) = -0.01` while the three rounded fields
give `0 - 0 - 0 = 0`, so the conservation equation fails between the
four rounded output values. -/
theorem C2_counterexample :
    ¬ ∀ r ∈ calculatePayroll c2db 0 10,
        r.netPayable = r.grossSalary - r.totalAdvance - r.totalPaymentDone := by
  decide

/-- Claim C2, amended: `net_payable` is the 2-decimal rounding of the
exact difference of the raw aggregates, so the conservation equation
between the four rounded fields holds whenever the raw gross, advance
and payment aggregates are each a whole number of cents (as with
2-decimal currency inputs); for sub-cent aggregates it can drift by a
cent, as the counterexample shows. -/
theorem C2_theorem (w : Worker) (att : List AttendanceRecord) (pay : List WorkerPayment)
    (hg : isCent (grossFor w att)) (ha : isCent (advancesFor w pay))
    (hp : isCent (paymentsFor w pay)) :
    (payrollRowFor w att pay).netPayable =
      (payrollRowFor w att pay).grossSalary - (payrollRowFor w att pay).totalAdvance -
        (payrollRowFor w att pay).totalPaymentDone := by
  show round2 (grossFor w att - advancesFor w pay - paymentsFor w pay) =
    round2 (grossFor w att) - round2 (advancesFor w pay) - round2 (paymentsFor w pay)
  rw [round2_of_isCent hg, round2_of_isCent ha, round2_of_isCent hp,
    round2_of_isCent (isCent_sub (isCent_sub hg ha) hp)]

/-- Claim C2, witness: the amended conservation law on a worker with a
whole-cent gross of 800 and a whole-cent advance of 100. -/
theorem C2_witness :
    isCent (grossFor c2wW c2wAtt) ∧ isCent (advancesFor c2wW c2wPay) ∧
    isCent (paymentsFor c2wW c2wPay) ∧
    (payrollRowFor c2wW c2wAtt c2wPay).netPayable =
      (payrollRowFor c2wW c2wAtt c2wPay).grossSalary -
        (payrollRowFor c2wW c2wAtt c2wPay).totalAdvance -
        (payrollRowFor c2wW c2wAtt c2wPay).totalPaymentDone :=
  ⟨by decide, by decide, by decide,
    C2_theorem c2wW c2wAtt c2wPay (by decide) (by decide) (by decide)⟩

/-- Claim C3: the day-collapse keeps at most one row per calendar day;
every kept row is the chronologically last row of its day; and the
payroll accumulators depend only on the per-day last rows, so no field
of an earlier same-day row contributes to the computation. -/
theorem C3_theorem :
    (∀ (l : List AttendanceRecord) (d : ℤ),
        ((collapseByDay l).filter (fun a => a.date = d)).length ≤ 1) ∧
    (∀ (l : List AttendanceRecord) (a : AttendanceRecord),
        a ∈ collapseByDay l → lastWithDay a.date l = some a) ∧
    (∀ (rate : ℚ) (l₁ l₂ : List AttendanceRecord),
        (∀ d, lastWithDay d l₁ = lastWithDay d l₂) →
          workerStats rate l₁ = workerStats rate l₂) := by
  refine ⟨?_, ?_, ?_⟩
  · intro l d
    unfold collapseByDay
    exact filterMap_lastWithDay_count l (sortedDays l) (sortedDays_nodup l) d
  · intro l a h
    unfold collapseByDay at h
    obtain ⟨d, hd, hf⟩ := List.mem_filterMap.mp h
    have had := (lastWithDay_spec hf).2
    rw [had]
    exact hf
  · intro rate l₁ l₂ h
    exact workerStats_congr rate h

/-- Claim C3, witness: two raw rows on day 5; the collapsed record is
the later `Half-Day` row, and deleting the earlier `Present` row leaves
the statistics unchanged. -/
theorem C3_witness :
    lastWithDay c3B.date c3l₁ = some c3B ∧ workerStats 100 c3l₁ = workerStats 100 c3l₂ := by
  constructor
  · exact C3_theorem.2.1 c3l₁ c3B (by decide)
  · refine C3_theorem.2.2 100 c3l₁ c3l₂ ?_
    intro d
    by_cases hd : d = 5
    · subst hd
      decide
    · have h5 : ¬((5 : ℤ) = d) := fun hh => hd hh.symm
      simp [lastWithDay, c3l₁, c3l₂, c3A, c3B, List.filter, h5]

/-- Claim C4: on a collapsed `Present` day the engine defaults hours to
8.0 when missing or non-positive, then pays
`(base_hours/8)*daily_rate + overtime_hours*(daily_rate/8)` with
`base_hours = min(hours, 8)` and `overtime_hours = max(0, hours − 8)`;
in particular daily_rate 800 with a 10-hour `Present` day yields a
gross of 1000 (base 800 + overtime 200). -/
theorem C4_theorem :
    (presentHours none = 8 ∧
      (∀ v : ℚ, v ≤ 0 → presentHours (some v) = 8) ∧
      (∀ v : ℚ, 0 < v → presentHours (some v) = v)) ∧
    (∀ (rate : ℚ) (st : PayStats) (wid : ℕ) (d : ℤ) (h : Option ℚ),
      (processDay rate st ⟨wid, d, .present, h⟩).gross =
        st.gross + (min (presentHours h) 8 / 8) * rate +
          max 0 (presentHours h - 8) * (rate / 8)) ∧
    (payrollRowFor ⟨1, "w", some 800, true⟩ [⟨1, 3, .present, some 10⟩] []).grossSalary
      = 1000 := by
  refine ⟨⟨?_, ?_, ?_⟩, ?_, ?_⟩
  · decide
  · intro v hv
    simp [presentHours, hv]
  · intro v hv
    simp only [presentHours, Option.getD_some]
    rw [if_neg (not_le.mpr hv)]
  · intro rate st wid d h
    simp only [processDay]
    ring
  · decide

/-- Claim C4, witness: the defaulting branches evaluated at hours −2
(non-positive, so defaulted to 8) and at hours 10 (kept). -/
theorem C4_witness : presentHours (some (-2)) = 8 ∧ presentHours (some 10) = 10 :=
  ⟨C4_theorem.1.2.1 (-2) (by norm_num), C4_theorem.1.2.2 10 (by norm_num)⟩

/-- Claim C5, counterexample: in the scenario (thresholds unset, past
expenses 100, 200, 300 on three days, today's expense 350) the code
fires no alert at all — the claim predicted a high-expense alert at
threshold 300, but the trailing window includes today, so the mean is
taken over four expense days. -/
theorem C5_counterexample : checkNotifications c5db 100 = some [] := by decide

/-- Claim C5, amended: in that scenario the default-threshold mean
includes today's expense day, giving `avg = 950/4 = 237.5` and a
default threshold of `1.5 × 237.5 = 356.25`, so today's 350 does not
breach it and `check_notifications` returns no messages. -/
theorem C5_theorem :
    avgDailyExpense (getTransactionsDf c5db 70 100) = 475 / 2 ∧
    (475 / 2 : ℚ) * 1.5 = 1425 / 4 ∧
    checkNotifications c5db 100 = some [] := by
  refine ⟨by decide, by decide, by decide⟩

/-- Claim C6: a collapsed `Half-Day` adds exactly `0.5 * daily_rate` to
the gross regardless of the hours field, increments `half_days`, adds
0.5 to `worked_days_equivalent` and leaves `days_present` (and the
overtime total) unchanged; a daily_rate of 1000 with one `Half-Day`
yields gross 500, half_days 1, days_present 0. -/
theorem C6_theorem :
    (∀ (rate : ℚ) (st : PayStats) (wid : ℕ) (d : ℤ) (h : Option ℚ),
      processDay rate st ⟨wid, d, .halfDay, h⟩ =
        { st with
          gross := st.gross + 0.5 * rate
          halfDays := st.halfDays + 1
          workedDaysEq := st.workedDaysEq + 0.5 }) ∧
    ((payrollRowFor ⟨1, "w", some 1000, true⟩ [⟨1, 3, .halfDay, some 6⟩] []).grossSalary
        = 500 ∧
      (payrollRowFor ⟨1, "w", some 1000, true⟩ [⟨1, 3, .halfDay, some 6⟩] []).halfDays = 1 ∧
      (payrollRowFor ⟨1, "w", some 1000, true⟩ [⟨1, 3, .halfDay, some 6⟩] []).daysPresent
        = 0) := by
  refine ⟨fun rate st wid d h => rfl, by decide, by decide, by decide⟩

/-- Claim C7, counterexample: an active worker with no attendance but
sub-cent payment rows (advance 0.006, payment 0.006) gets
`net_payable = round2(-0.012) = -0.01`, which is neither the negation of
the raw advances-plus-payments (−0.012) nor the negation of the rounded
fields (−0.02). -/
theorem C7_counterexample :
    calculatePayroll c7db 0 10 =
      [⟨1, "w", 600, 0, 0, 0, 0, 0, 1 / 100, 1 / 100, -(1 / 100)⟩] ∧
    (-(1 / 100) : ℚ) ≠ -(3 / 500 + 3 / 500) ∧
    (-(1 / 100) : ℚ) ≠ -(1 / 100 + 1 / 100) := by
  refine ⟨by decide, by decide, by decide⟩

/-- Claim C7, amended: an active worker with no attendance rows in range
still yields a row with gross_salary 0, days_present 0, half_days 0,
overtime_hours 0, worked_days_equivalent 0, and a net payable equal to
the 2-decimal rounding of −(advances + payments); when both payment
aggregates are whole-cent amounts this equals
−(total_advance + total_payment_done) exactly. -/
theorem C7_theorem (w : Worker) (att : List AttendanceRecord) (pay : List WorkerPayment)
    (hatt : workerAtt w att = []) :
    (payrollRowFor w att pay).grossSalary = 0 ∧
    (payrollRowFor w att pay).daysPresent = 0 ∧
    (payrollRowFor w att pay).halfDays = 0 ∧
    (payrollRowFor w att pay).overtimeHours = 0 ∧
    (payrollRowFor w att pay).workedDaysEquivalent = 0 ∧
    (payrollRowFor w att pay).netPayable =
      round2 (-(advancesFor w pay + paymentsFor w pay)) ∧
    (isCent (advancesFor w pay) → isCent (paymentsFor w pay) →
      (payrollRowFor w att pay).netPayable =
        -((payrollRowFor w att pay).totalAdvance +
          (payrollRowFor w att pay).totalPaymentDone)) := by
  have hstats : workerStats (workerRate w) (workerAtt w att) = initStats := by
    rw [hatt]
    rfl
  have h1 : initStats.gross - advancesFor w pay - paymentsFor w pay =
      -(advancesFor w pay + paymentsFor w pay) := by
    show (0 : ℚ) - _ - _ = _
    ring
  simp only [payrollRowFor, hstats]
  refine ⟨round2_zero, rfl, rfl, rfl, round3_zero, ?_, ?_⟩
  · rw [h1]
  · intro hca hcp
    have hnc : isCent (-(advancesFor w pay + paymentsFor w pay)) := by
      have h2 := isCent_sub (isCent_sub isCent_zero hca) hcp
      rwa [show (0 : ℚ) - advancesFor w pay - paymentsFor w pay =
        -(advancesFor w pay + paymentsFor w pay) from by ring] at h2
    rw [h1, round2_of_isCent hnc, round2_of_isCent hca, round2_of_isCent hcp]

/-- Claim C7, witness: a worker whose attendance slice of the range is
empty (the only row belongs to another worker) with a single advance of
50, evaluated through the amended statement. -/
theorem C7_witness :
    workerAtt c7wW c7wAtt = [] ∧
    (payrollRowFor c7wW c7wAtt c7wPay).netPayable =
      round2 (-(advancesFor c7wW c7wPay + paymentsFor c7wW c7wPay)) :=
  ⟨by decide, (C7_theorem c7wW c7wAtt c7wPay (by decide)).2.2.2.2.2.1⟩

/-- Claim C8: when the trailing 30-day window holds no transactions,
`check_notifications` returns the empty message list (both checks are
skipped and no error is raised). -/
theorem C8_theorem (db : Database) (today : ℤ)
    (h : getTransactionsDf db (today - 30) today = []) :
    checkNotifications db today = some [] := by
  simp [checkNotifications, h]

/-- Claim C8, witness: the empty store at day 0. -/
theorem C8_witness :
    getTransactionsDf c8db (0 - 30) 0 = [] ∧ checkNotifications c8db 0 = some [] :=
  ⟨by decide, C8_theorem c8db 0 (by decide)⟩

/-- Claim C9: `get_setting` on a never-set key returns the supplied
default unchanged (the function only reads — it has no write path in
the model or in the source), and on a key whose stored value does not
parse as a float it returns the raw stored value un-parsed; being a
total function, it raises nothing. -/
theorem C9_theorem :
    (∀ (s : List (String × String)) (key : String) (d : SettingValue),
        lookupSetting s key = none → getSetting s key d = d) ∧
    (∀ (s : List (String × String)) (key : String) (d : SettingValue) (v : String),
        lookupSetting s key = some v → pyFloat? v = none →
          getSetting s key d = .str v) := by
  constructor
  · intro s key d h
    simp [getSetting, h]
  · intro s key d v h hv
    simp [getSetting, h, hv]

/-- Claim C9, witness: a store holding only `expense_threshold = "abc"`:
the never-set key returns the default `num 7`, and the non-numeric
stored value is returned raw. -/
theorem C9_witness :
    getSetting c9settings "never_set" (.num 7) = .num 7 ∧
    getSetting c9settings "expense_threshold" (.num 7) = .str "abc" :=
  ⟨C9_theorem.1 c9settings "never_set" (.num 7) (by decide),
    C9_theorem.2 c9settings "expense_threshold" (.num 7) "abc" (by decide) (by decide)⟩

/-- Claim C10: the `base_hours > 0` guard on the `days_present` increment
is always satisfied (the defaulting steps force positive hours, hence a
positive `base_hours = min(hours, 8)`, whatever the daily rate), so
`days_present` equals exactly the number of collapsed attendance days
whose status is `Present`. -/
theorem C10_theorem :
    (∀ h : Option ℚ, 0 < min (presentHours h) 8) ∧
    (∀ (rate : ℚ) (l : List AttendanceRecord),
      (workerStats rate l).daysPresent =
        ((collapseByDay l).filter (fun a => a.status = Status.present)).length) := by
  constructor
  · intro h
    exact lt_min (presentHours_pos h) (by norm_num)
  · intro rate l
    unfold workerStats
    rw [foldl_daysPresent]
    simp [initStats]

end App
